import Mathlib

/-!
Verification of the expense-tracker script (`todo.py`): a shallow embedding
of its record store, entry capture, search and monthly-summary operations,
together with theorems settling the specified properties.

Modelling conventions:
* The CSV backing store is a `List Record` in file order; the header row is
  implicit.  `append` writes one row at the end; `readAll` returns the rows.
* Amounts are rationals (`ℚ`): Python stores the amount as text and re-parses
  it with `float` on every read; the claims under study do not depend on
  binary floating-point rounding, only on sums of the entered values.
* Interactive re-prompt loops are modelled by a list of successive inputs:
  the loop consumes inputs until the first valid one; if no input in the
  list is valid the loop never terminates and no write occurs.
* Character case functions model Python `str.upper`/`str.lower`/
  `str.capitalize` on the ASCII range (`Char.toUpper`/`Char.toLower`).
-/

namespace Expense

/-- One expense record, mirroring the CSV row
`Date,Category,Amount,Description` of `todo.py`. -/
structure Record where
  date : String
  category : String
  amount : ℚ
  description : String
deriving DecidableEq, Repr

/-! ### Python string primitives used by the script -/

/-- Python `str.lower()` (ASCII model). -/
def pyLower (s : String) : String :=
  String.mk (s.data.map Char.toLower)

/-- Python `str.capitalize()` (ASCII model): the first character is
upper-cased and every remaining character is lower-cased; the empty string
is unchanged.  This embeds line 50 of `todo.py`
(`'Category': category.capitalize()`). -/
def pyCapitalize (s : String) : String :=
  match s.data with
  | [] => ""
  | c :: cs => String.mk (Char.toUpper c :: cs.map Char.toLower)

/-- Python `str.startswith(pfx)`: `pfx` is a prefix of the string. -/
def strStarts (s pfx : String) : Bool :=
  pfx.data.isPrefixOf s.data

/-! ### Date validation: `datetime.strptime(s, '%Y-%m-%d')`

CPython compiles `%Y-%m-%d` to the regular expression
`(?P<Y>\d\d\d\d)-(?P<m>1[0-2]|0[1-9]|[1-9])-(?P<d>3[01]|[12]\d|0[1-9]|[1-9])`,
requires the whole string to be consumed, and then constructs a
`datetime(year, month, day)`, which raises `ValueError` unless
`1 <= year` and the day exists in that month (Gregorian leap rule).
The definitions below reproduce exactly that acceptance condition. -/

/-- Split a character list on the literal separator character `'-'`
(the two dashes of the `%Y-%m-%d` pattern; the field regexes match only
digits, so splitting on every dash is equivalent to the regex structure). -/
def splitFields : List Char → List (List Char)
  | [] => [[]]
  | c :: cs =>
    if c = '-' then [] :: splitFields cs
    else
      match splitFields cs with
      | f :: fs => (c :: f) :: fs
      | [] => [[c]]

/-- Numeric value of a digit string. -/
def digitsVal (l : List Char) : Nat :=
  l.foldl (fun n c => 10 * n + (c.toNat - 48)) 0

/-- All characters are decimal digits. -/
def allDigits (l : List Char) : Bool :=
  l.all (fun c => c.isDigit)

/-- The `%Y` field: exactly four digits. -/
def yearField (l : List Char) : Bool :=
  allDigits l && l.length == 4

/-- The `%m` field: `1[0-2]|0[1-9]|[1-9]`, i.e. one digit `1..9` or two
digits with value `1..12`. -/
def monthField (l : List Char) : Bool :=
  allDigits l &&
    ((l.length == 1 && decide (1 ≤ digitsVal l)) ||
     (l.length == 2 && decide (1 ≤ digitsVal l) && decide (digitsVal l ≤ 12)))

/-- The `%d` field: `3[01]|[12]\d|0[1-9]|[1-9]`, i.e. one digit `1..9` or
two digits with value `1..31`. -/
def dayField (l : List Char) : Bool :=
  allDigits l &&
    ((l.length == 1 && decide (1 ≤ digitsVal l)) ||
     (l.length == 2 && decide (1 ≤ digitsVal l) && decide (digitsVal l ≤ 31)))

/-- Gregorian leap year, as Python's `datetime` uses it. -/
def isLeap (y : Nat) : Bool :=
  y % 4 == 0 && (y % 100 != 0 || y % 400 == 0)

/-- Number of days in a month (`datetime`'s calendar). -/
def daysInMonth (y m : Nat) : Nat :=
  if m = 2 then (if isLeap y then 29 else 28)
  else if m = 4 ∨ m = 6 ∨ m = 9 ∨ m = 11 then 30
  else 31

/-- Acceptance of `datetime.strptime(s, '%Y-%m-%d')` (line 29 of
`todo.py`): four-digit year `≥ 1`, month `1..12` in one or two digits,
day `1..31` in one or two digits that exists in that month and year. -/
def validDateYMD (s : String) : Bool :=
  match splitFields s.data with
  | [y, m, d] =>
    yearField y && monthField m && dayField d &&
      decide (1 ≤ digitsVal y) &&
      decide (digitsVal d ≤ daysInMonth (digitsVal y) (digitsVal m))
  | _ => false

/-- Acceptance of `datetime.strptime(s, '%Y-%m')` (line 114 of `todo.py`):
four-digit year `≥ 1` and month `1..12`; the day defaults to 1, which is
always valid. -/
def validMonthYM (s : String) : Bool :=
  match splitFields s.data with
  | [y, m] => yearField y && monthField m && decide (1 ≤ digitsVal y)
  | _ => false

/-! ### Record store (`init_file`, the `open(...'a')` write, the reads) -/

/-- A freshly initialised store: the header row only, no data rows. -/
def emptyStore : List Record := []

/-- `append`: the single-row write of `add_expense` (lines 55-57). -/
def appendRecord (store : List Record) (r : Record) : List Record :=
  store ++ [r]

/-- `readAll`: the full `csv.DictReader` pass used by every reading
operation; file order is insertion order. -/
def readAll (store : List Record) : List Record :=
  store

/-- Appending a batch of records one by one. -/
def appendAll (store : List Record) (rs : List Record) : List Record :=
  rs.foldl appendRecord store

/-! ### Entry capture (`add_expense`, lines 21-58) -/

/-- The date re-prompt loop (lines 26-32): the first input accepted by
`strptime('%Y-%m-%d')`; `none` if no input in the stream is valid (the
loop never finishes). -/
def firstValidDate (inputs : List String) : Option String :=
  inputs.find? (fun s => validDateYMD s)

/-- Result of Python `float` on one line typed at the amount prompt
(line 37).  `float` can yield, besides a finite value or a `ValueError`,
the non-finite values `nan` (from `"nan"`), `inf` (from `"inf"`) and
`-inf` (from `"-inf"`); these are separate constructors because their
comparison behaviour differs from every rational. -/
inductive FloatInput where
  | parseError
  | nan
  | inf
  | ninf
  | val (q : ℚ)
deriving DecidableEq, Repr

/-- The amount loop's acceptance test as the code runs it (lines 35-43):
a `ValueError` re-prompts; otherwise the parsed float breaks the loop
exactly when `amount <= 0` is false.  Python comparisons on `nan` are all
false, so `nan <= 0` is false and `nan` is accepted; `inf <= 0` is false
(accepted) and `-inf <= 0` is true (re-prompt); a finite value is
accepted exactly when it is not `≤ 0`. -/
def amountAccepted : FloatInput → Bool
  | FloatInput.parseError => false
  | FloatInput.nan => true
  | FloatInput.inf => true
  | FloatInput.ninf => false
  | FloatInput.val q => decide (¬ q ≤ 0)

/-- Python's `amount > 0` on the parsed float: the property claim C2
asserts of every stored amount.  `nan > 0` is false (NaN compares false
to everything), `inf > 0` is true. -/
def amountPos : FloatInput → Bool
  | FloatInput.parseError => false
  | FloatInput.nan => false
  | FloatInput.inf => true
  | FloatInput.ninf => false
  | FloatInput.val q => decide (0 < q)

/-- The amount re-prompt loop over the full float input space: the first
input that breaks the loop (the value the program stores). -/
def firstAcceptedAmount (inputs : List FloatInput) : Option FloatInput :=
  inputs.find? amountAccepted

/-- A stored row with its amount kept as the parsed float, so that a row
written from a non-finite accepted amount (`nan`, `inf`) can be
represented. -/
structure RecordF where
  date : String
  category : String
  amount : FloatInput
  description : String
deriving DecidableEq, Repr

/-- `add_expense` over the full float input space: identical to
`addExpense` below except that the accepted amount is kept as the parsed
float, whatever it is. -/
def addExpenseFloat (dates : List String) (amounts : List FloatInput)
    (category description : String) (store : List RecordF) : List RecordF :=
  match firstValidDate dates, firstAcceptedAmount amounts with
  | some d, some a =>
    store ++ [{ date := d, category := pyCapitalize category,
                amount := a, description := description }]
  | _, _ => store

/-- Acceptance restricted to finite-or-error inputs: the input parsed to
a finite value (`some q`) that is strictly positive.  On this restricted
space acceptance and positivity coincide; they differ on `nan` — see
`amount_gate_accepts_nan`. -/
def posAmount : Option ℚ → Bool
  | some q => decide (0 < q)
  | none => false

/-- The amount re-prompt loop restricted to runs whose typed lines all
parse to a finite value (`some q`) or raise `ValueError` (`none`) — that
is, runs in which none of the non-finite inputs `nan`/`inf`/`-inf` is
typed.  `firstAcceptedAmount` above is the unrestricted loop; on it the
accepted value can be `nan`, which the store model below (rational
amounts) cannot carry, so the store-level theorems are stated for the
restricted runs. -/
def firstValidAmount (inputs : List (Option ℚ)) : Option ℚ :=
  (inputs.find? posAmount).bind id

/-- `add_expense`: obtain a valid date and a valid amount through the two
re-prompt loops, normalise the category with `capitalize`, take the
description verbatim, and append the composed row.  If either loop never
obtains a valid input, no write occurs.  The amount stream here is the
restricted (finite-or-error) one, since a rational-amount record cannot
carry an accepted `nan`; `firstAcceptedAmount` models the unrestricted
gate. -/
def addExpense (dates : List String) (amounts : List (Option ℚ))
    (category description : String) (store : List Record) : List Record :=
  match firstValidDate dates, firstValidAmount amounts with
  | some d, some a =>
    appendRecord store
      { date := d, category := pyCapitalize category,
        amount := a, description := description }
  | _, _ => store

/-- A sequence of entry-capture operations, each with its own input
streams, applied in order. -/
def runCaptures
    (ops : List (List String × List (Option ℚ) × String × String))
    (store : List Record) : List Record :=
  ops.foldl (fun st op => addExpense op.1 op.2.1 op.2.2.1 op.2.2.2 st) store

/-- The data-model invariant: a stored row's date passes
`strptime('%Y-%m-%d')` and its amount is strictly positive. -/
def recordInvariant (r : Record) : Prop :=
  validDateYMD r.date = true ∧ 0 < r.amount

/-! ### Search (`search_expenses`, lines 78-103) -/

/-- The selection loop of `search_expenses` (lines 88-95): the mode string
is lower-cased first (line 85); a row is kept when the mode is `date` and
the date matches exactly, or the mode is `category` and the categories
match case-insensitively; any other mode keeps nothing. -/
def searchExpenses (mode term : String) (rows : List Record) : List Record :=
  rows.filter (fun row =>
    if pyLower mode = "date" then decide (row.date = term)
    else if pyLower mode = "category" then
      decide (pyLower row.category = pyLower term)
    else false)

/-! ### Monthly summary (`get_monthly_summary`, lines 105-150) -/

/-- One `category_totals[category] += amount` update of the
`defaultdict(float)` (line 130): first occurrence of a category appends it
at the end (dict insertion order), later occurrences add in place. -/
def addToTotals : List (String × ℚ) → String → ℚ → List (String × ℚ)
  | [], c, a => [(c, a)]
  | (c', t) :: rest, c, a =>
    if c' = c then (c', t + a) :: rest
    else (c', t) :: addToTotals rest c a

/-- The body of the summary loop (lines 125-130): a row whose date starts
with the month string adds its amount to the running total and to its
category's subtotal; any other row leaves the accumulator unchanged. -/
def scanStep (pfx : String) (acc : ℚ × List (String × ℚ)) (r : Record) :
    ℚ × List (String × ℚ) :=
  if strStarts r.date pfx then
    (acc.1 + r.amount, addToTotals acc.2 r.category r.amount)
  else acc

/-- The summary accumulation loop (lines 122-130): one pass over the rows
starting from total `0.0` and an empty `defaultdict`. -/
def monthlyScan (pfx : String) (rows : List Record) :
    ℚ × List (String × ℚ) :=
  rows.foldl (scanStep pfx) (0, [])

/-- `monthly_total` after the loop. -/
def monthlyTotal (pfx : String) (rows : List Record) : ℚ :=
  (monthlyScan pfx rows).1

/-- `category_totals` after the loop, in dict insertion order
(first-seen category order). -/
def categoryTotals (pfx : String) (rows : List Record) :
    List (String × ℚ) :=
  (monthlyScan pfx rows).2

/-- The subtotal recorded for category `c` (0 when absent, as for a
`defaultdict(float)`). -/
def lookupTotal (c : String) (ts : List (String × ℚ)) : ℚ :=
  match ts.find? (fun p => decide (p.1 = c)) with
  | some p => p.2
  | none => 0

/-- The comparison realised by
`sorted(category_totals.items(), key=lambda item: item[1], reverse=True)`:
`a` precedes `b` when `a`'s subtotal is at least `b`'s. -/
def rankRel (a b : String × ℚ) : Prop :=
  b.2 ≤ a.2

instance : DecidableRel rankRel :=
  fun a b => inferInstanceAs (Decidable (b.2 ≤ a.2))

instance : IsTotal (String × ℚ) rankRel :=
  ⟨fun a b => le_total b.2 a.2⟩

instance : IsTrans (String × ℚ) rankRel :=
  ⟨fun _ _ _ h1 h2 => le_trans h2 h1⟩

/-- `sorted_categories` (line 144): Python's `sorted` is a stable sort;
insertion sort with `rankRel` places an earlier item before every later
item whose key is not larger, which is exactly stable descending order
by subtotal. -/
def sortedCategories (ts : List (String × ℚ)) : List (String × ℚ) :=
  List.insertionSort rankRel ts

/-- One line of the summary report, in print order. -/
inductive SummaryLine where
  | noExpenses
  | total (t : ℚ)
  | catLine (c : String) (t : ℚ)
  | notEnough
  | topLine (rank : Nat) (c : String) (t : ℚ)
deriving DecidableEq, Repr

/-- The "Top 3 Expense Categories" section (lines 146-150): the
`Not enough data` notice prints whenever fewer than three categories
exist, and the first three entries of the sorted list print afterwards
in every case. -/
def topSection (ts : List (String × ℚ)) : List SummaryLine :=
  (if (sortedCategories ts).length < 3 then [SummaryLine.notEnough] else [])
    ++ ((sortedCategories ts).take 3).enum.map
        (fun p => SummaryLine.topLine (p.1 + 1) p.2.1 p.2.2)

/-- The report of `get_monthly_summary` after a well-formed month string
(lines 119-150): if the monthly total is zero, only the
`No expenses found` line; otherwise the grand total, each category with
its subtotal in first-seen order, then the top-3 section. -/
def summarize (pfx : String) (rows : List Record) : List SummaryLine :=
  if monthlyTotal pfx rows = 0 then [SummaryLine.noExpenses]
  else
    SummaryLine.total (monthlyTotal pfx rows)
      :: ((categoryTotals pfx rows).map (fun p => SummaryLine.catLine p.1 p.2))
      ++ topSection (categoryTotals pfx rows)

/-- `get_monthly_summary` including the month-format gate (lines 113-117):
`none` models the `Invalid month/year format` early return. -/
def getMonthlySummary (pfx : String) (rows : List Record) :
    Option (List SummaryLine) :=
  if validMonthYM pfx then some (summarize pfx rows) else none

/-! ### State-passing forms of the operations

The second component is the backing CSV file's contents.  `view_expenses`,
`search_expenses` and `get_monthly_summary` open the file with mode `'r'`
only, so their state component is the input state; only `add_expense`
(mode `'a'`) writes. -/

/-- `view_expenses` as a state transformer: output rows and the file
afterwards. -/
def viewExpensesOp (store : List Record) :
    List Record × List Record :=
  (readAll store, store)

/-- `search_expenses` as a state transformer. -/
def searchExpensesOp (mode term : String) (store : List Record) :
    List Record × List Record :=
  (searchExpenses mode term store, store)

/-- `get_monthly_summary` as a state transformer. -/
def monthlySummaryOp (pfx : String) (store : List Record) :
    Option (List SummaryLine) × List Record :=
  (getMonthlySummary pfx store, store)

/-- `add_expense` as a state transformer: the only writer. -/
def addExpenseOp (dates : List String) (amounts : List (Option ℚ))
    (category description : String) (store : List Record) :
    Unit × List Record :=
  ((), addExpense dates amounts category description store)

/-! ### Definitions taken from the spec's wording (for comparison only) -/

/-- The category normalisation as the spec words it: the first character
is upper-cased and the remaining characters are left exactly as typed. -/
def specCapitalize (s : String) : String :=
  match s.data with
  | [] => ""
  | c :: cs => String.mk (Char.toUpper c :: cs)

/-- First character upper-cased, all remaining characters lower-cased, at
the character-list level — the amended description of `capitalize`. -/
def fullNormChars (l : List Char) : List Char :=
  (l.take 1).map Char.toUpper ++ (l.drop 1).map Char.toLower

/-- Example rows from the spec's `summarize("2025-09")` test vector. -/
def exampleRows : List Record :=
  [ { date := "2025-09-01", category := "Food", amount := 10,
      description := "a" },
    { date := "2025-09-02", category := "Transport", amount := 5,
      description := "b" },
    { date := "2025-10-01", category := "Food", amount := 99,
      description := "c" } ]

end Expense

namespace Expense

theorem appendAll_append (store rs : List Record) :
    appendAll store rs = store ++ rs := by
  induction rs generalizing store with
  | nil => simp [appendAll]
  | cons r rs ih =>
    have h : appendAll store (r :: rs) = appendAll (appendRecord store r) rs := rfl
    rw [h, ih, appendRecord]
    simp

/-- Claim C8: round-trip through the record store.  Appending `N` valid
records to an initialised (empty) store and reading back yields exactly
those `N` records in insertion order, and after any single append the last
element of `readAll` is the appended record, field for field. -/
theorem store_roundtrip :
    (∀ rs : List Record, readAll (appendAll emptyStore rs) = rs)
    ∧ ∀ (store : List Record) (r : Record),
        (readAll (appendRecord store r)).getLast? = some r := by
  refine ⟨fun rs => ?_, fun store r => ?_⟩
  · rw [readAll, appendAll_append, emptyStore, List.nil_append]
  · rw [readAll, appendRecord, List.getLast?_concat]

/-- Claim C10: the view-all, search and monthly-summary operations never
modify the backing store — their state component equals the input state
for every starting contents; only `add_expense` appends. -/
theorem read_ops_pure :
    ∀ (store : List Record) (mode term pfx : String),
      (viewExpensesOp store).2 = store
      ∧ (searchExpensesOp mode term store).2 = store
      ∧ (monthlySummaryOp pfx store).2 = store :=
  fun _ _ _ _ => ⟨rfl, rfl, rfl⟩

/-- Claim C9: any mode selector that is neither the date mode nor the
category mode (after the `lower()` the code applies to it) selects no
records at all, whatever the stored data and the term, so the outcome is
the no-matches outcome; the mode string is never rejected. -/
theorem search_unknown_mode (mode term : String) (rows : List Record)
    (h1 : pyLower mode ≠ "date") (h2 : pyLower mode ≠ "category") :
    searchExpenses mode term rows = [] := by
  simp [searchExpenses, h1, h2]

theorem search_unknown_mode_witness :
    pyLower "amount" ≠ "date" ∧ pyLower "amount" ≠ "category"
    ∧ searchExpenses "amount" "x" exampleRows = [] :=
  ⟨by decide, by decide, search_unknown_mode _ _ _ (by decide) (by decide)⟩

/-- Claim C3: `searchByDate(term)` returns exactly the records whose date
field is string-equal to `term`; in particular a record dated
`2025-09-5` is not returned for the term `2025-09-05`. -/
theorem search_by_date_exact (term : String) (rows : List Record) :
    (∀ r, r ∈ searchExpenses "date" term rows ↔ (r ∈ rows ∧ r.date = term))
    ∧ searchExpenses "date" "2025-09-05"
        [{ date := "2025-09-5", category := "Food", amount := 10,
           description := "x" }] = [] := by
  constructor
  · intro r
    simp +decide [searchExpenses, List.mem_filter]
  · decide

/-- Claim C4: `searchByCategory(term)` returns exactly the records whose
category equals `term` case-insensitively; in particular the term `food`
matches stored categories `Food` and `FOOD`. -/
theorem search_by_category_ci (term : String) (rows : List Record) :
    (∀ r, r ∈ searchExpenses "category" term rows
        ↔ (r ∈ rows ∧ pyLower r.category = pyLower term))
    ∧ searchExpenses "category" "food"
        [{ date := "2025-09-01", category := "Food", amount := 10,
           description := "x" },
         { date := "2025-09-02", category := "FOOD", amount := 5,
           description := "y" }]
      = [{ date := "2025-09-01", category := "Food", amount := 10,
           description := "x" },
         { date := "2025-09-02", category := "FOOD", amount := 5,
           description := "y" }] := by
  constructor
  · intro r
    simp +decide [searchExpenses, List.mem_filter]
  · decide

/-- Claim C1, counterexample: the claim says the stored category is the
input with only its first character upper-cased and the rest left exactly
as typed (so `foOD` would be stored as `FoOD`).  The code uses Python
`str.capitalize()`, which also lower-cases the remainder: entering
category `foOD` stores `Food`, not `FoOD` = `specCapitalize "foOD"`. -/
theorem capitalize_counterexample :
    (addExpense ["2025-09-15"] [some 5] "foOD" "lunch" emptyStore).map
        (fun r => r.category) = ["Food"]
    ∧ specCapitalize "foOD" = "FoOD"
    ∧ (addExpense ["2025-09-15"] [some 5] "foOD" "lunch" emptyStore).map
        (fun r => r.category) ≠ [specCapitalize "foOD"] := by
  refine ⟨by decide, by decide, by decide⟩

/-- Claim C1, amended: Entry Capture normalises the category by
upper-casing its first character and lower-casing every remaining
character (Python `str.capitalize()`), so input `foOD` is stored as
`Food`; the stored record is the input record with exactly this
normalised category. -/
theorem addExpense_capitalizes (dates : List String)
    (amounts : List (Option ℚ)) (category description : String)
    (store : List Record) (d : String) (a : ℚ)
    (h1 : firstValidDate dates = some d)
    (h2 : firstValidAmount amounts = some a) :
    addExpense dates amounts category description store
      = store ++ [{ date := d, category := pyCapitalize category,
                    amount := a, description := description }]
    ∧ (pyCapitalize category).data = fullNormChars category.data := by
  constructor
  · rw [addExpense, h1, h2]
    simp only [appendRecord]
  · cases hc : category.data with
    | nil => simp [pyCapitalize, fullNormChars, hc]
    | cons c cs => simp [pyCapitalize, fullNormChars, hc]

theorem addExpense_capitalizes_witness :
    firstValidDate ["2025-09-15"] = some "2025-09-15"
    ∧ firstValidAmount [some 5] = some 5
    ∧ (addExpense ["2025-09-15"] [some 5] "foOD" "lunch" exampleRows
        = exampleRows ++ [{ date := "2025-09-15",
                            category := pyCapitalize "foOD",
                            amount := 5, description := "lunch" }]
      ∧ (pyCapitalize "foOD").data = fullNormChars "foOD".data) :=
  ⟨by decide, by decide,
    addExpense_capitalizes _ _ _ _ _ _ _ (by decide) (by decide)⟩

theorem find?_validDate {dates : List String} {d : String}
    (h : firstValidDate dates = some d) : validDateYMD d = true :=
  List.find?_some h

theorem find?_posAmount {amounts : List (Option ℚ)} {a : ℚ}
    (h : firstValidAmount amounts = some a) : 0 < a := by
  rw [firstValidAmount] at h
  cases hf : amounts.find? posAmount with
  | none => rw [hf] at h; simp at h
  | some o =>
    rw [hf] at h
    have hp := List.find?_some hf
    cases o with
    | none => simp [posAmount] at hp
    | some q =>
      simp [posAmount] at hp
      simp [Option.bind] at h
      rw [← h]
      exact hp

theorem addExpense_invariant (dates : List String)
    (amounts : List (Option ℚ)) (category description : String)
    (store : List Record)
    (hs : ∀ r ∈ store, recordInvariant r) :
    ∀ r ∈ addExpense dates amounts category description store,
      recordInvariant r := by
  intro r hr
  rw [addExpense] at hr
  cases h1 : firstValidDate dates with
  | none => rw [h1] at hr; exact hs r hr
  | some d =>
    cases h2 : firstValidAmount amounts with
    | none => rw [h1, h2] at hr; exact hs r hr
    | some a =>
      rw [h1, h2] at hr
      simp only [appendRecord] at hr
      rcases List.mem_append.1 hr with hm | hm
      · exact hs r hm
      · rcases List.mem_singleton.1 hm with rfl
        exact ⟨find?_validDate h1, find?_posAmount h2⟩

/-- Scope lemma for claim C2: over runs whose amount inputs are all
finite values or parse errors (no `nan`/`inf` typed), every record
written through any sequence of entry-capture operations from the
initialised store has a strictly positive amount and a date accepted by
`strptime('%Y-%m-%d')`.  The unrestricted program does NOT keep this
invariant: the gate accepts `nan`, whose stored amount is not strictly
positive — see `amount_gate_accepts_nan`, which settles claim C2. -/
theorem capture_invariant
    (ops : List (List String × List (Option ℚ) × String × String)) :
    ∀ r ∈ runCaptures ops emptyStore, recordInvariant r := by
  suffices h : ∀ (ops : List (List String × List (Option ℚ) × String × String))
      (store : List Record), (∀ r ∈ store, recordInvariant r) →
      ∀ r ∈ runCaptures ops store, recordInvariant r by
    exact h ops emptyStore (by simp [emptyStore])
  intro ops
  induction ops with
  | nil => intro store hs; simpa [runCaptures] using hs
  | cons op ops ih =>
    intro store hs
    have h1 : runCaptures (op :: ops) store
        = runCaptures ops (addExpense op.1 op.2.1 op.2.2.1 op.2.2.2 store) := rfl
    rw [h1]
    exact ih _ (addExpense_invariant _ _ _ _ _ hs)

theorem capture_invariant_witness :
    ({ date := "2025-09-15", category := "Food", amount := 5,
       description := "lunch" } : Record)
      ∈ runCaptures [(["2025-09-15"], [some 5], "foOD", "lunch")] emptyStore
    ∧ recordInvariant
        { date := "2025-09-15", category := "Food", amount := 5,
          description := "lunch" } :=
  ⟨by decide,
    capture_invariant [(["2025-09-15"], [some 5], "foOD", "lunch")] _ (by decide)⟩

/-- Claim C2, code bug at amount input `nan`: `float("nan")` parses, the
gate `amount <= 0` (line 38) is false on `nan` because every comparison
with NaN is false, so the loop breaks and a record with amount `nan` is
written to the store — yet `nan > 0` is also false, so that record's
amount is not strictly greater than zero, violating the invariant the
claim (and the spec, and the code's own `Amount must be a positive
number.` message) asserts.  For contrast, a negative finite input and a
parse error do re-prompt as claimed, and a positive finite input like
`5.5` is accepted. -/
theorem amount_gate_accepts_nan :
    addExpenseFloat ["2025-09-15"] [FloatInput.nan] "Food" "x" []
      = [{ date := "2025-09-15", category := "Food",
           amount := FloatInput.nan, description := "x" }]
    ∧ amountPos FloatInput.nan = false
    ∧ amountAccepted FloatInput.nan = true
    ∧ amountAccepted (FloatInput.val (-5)) = false
    ∧ amountAccepted FloatInput.parseError = false
    ∧ amountAccepted (FloatInput.val (11 / 2)) = true := by
  refine ⟨by decide, rfl, rfl, by norm_num [amountAccepted], rfl,
    by norm_num [amountAccepted]⟩

theorem scan_fst_eq (pfx : String) (rows : List Record)
    (init : ℚ × List (String × ℚ)) :
    (rows.foldl (scanStep pfx) init).1
      = init.1 + ((rows.filter (fun r => strStarts r.date pfx)).map
          (fun r => r.amount)).sum := by
  induction rows generalizing init with
  | nil => simp
  | cons r rows ih =>
    rw [List.foldl_cons, ih]
    by_cases h : strStarts r.date pfx
    · simp [scanStep, h, add_assoc]
    · simp [scanStep, h]

theorem lookupTotal_addToTotals (c c' : String) (a : ℚ)
    (ts : List (String × ℚ)) :
    lookupTotal c (addToTotals ts c' a)
      = lookupTotal c ts + (if c' = c then a else 0) := by
  induction ts with
  | nil =>
    by_cases h : c' = c <;> simp [addToTotals, lookupTotal, List.find?, h]
  | cons p ts ih =>
    obtain ⟨d, t⟩ := p
    by_cases h1 : d = c'
    · subst h1
      by_cases h2 : d = c
      · subst h2
        simp [addToTotals, lookupTotal, List.find?]
      · simp [addToTotals, lookupTotal, List.find?, h2]
    · by_cases h2 : d = c
      · subst h2
        have hne : ¬ c' = d := fun h => h1 h.symm
        simp [addToTotals, lookupTotal, List.find?, h1, hne]
      · simp [addToTotals, lookupTotal, List.find?, h1, h2] at ih ⊢
        rw [ih]

theorem scan_lookup_eq (pfx : String) (c : String) (rows : List Record)
    (init : ℚ × List (String × ℚ)) :
    lookupTotal c (rows.foldl (scanStep pfx) init).2
      = lookupTotal c init.2
        + (((rows.filter (fun r => strStarts r.date pfx)).filter
              (fun r => decide (r.category = c))).map (fun r => r.amount)).sum := by
  induction rows generalizing init with
  | nil => simp
  | cons r rows ih =>
    rw [List.foldl_cons, ih]
    by_cases h : strStarts r.date pfx
    · by_cases h2 : r.category = c
      · simp [scanStep, h, h2, lookupTotal_addToTotals, add_assoc]
      · simp [scanStep, h, h2, lookupTotal_addToTotals]
    · simp [scanStep, h]

/-- Claim C5: the monthly summary selects exactly the records whose date
starts with the month string (string prefix match), sums their amounts
into the grand total, and groups per-category subtotals on exact category
strings; over the spec's example rows, `summarize "2025-09"` totals `15`
with category totals `Food = 10`, `Transport = 5`. -/
theorem monthly_summary_selection (pfx : String) (rows : List Record) :
    monthlyTotal pfx rows
      = ((rows.filter (fun r => strStarts r.date pfx)).map
          (fun r => r.amount)).sum
    ∧ (∀ c : String, lookupTotal c (categoryTotals pfx rows)
        = (((rows.filter (fun r => strStarts r.date pfx)).filter
              (fun r => decide (r.category = c))).map
            (fun r => r.amount)).sum)
    ∧ monthlyTotal "2025-09" exampleRows = 15
    ∧ categoryTotals "2025-09" exampleRows = [("Food", 10), ("Transport", 5)] := by
  refine ⟨?_, fun c => ?_, ?_, ?_⟩
  · rw [monthlyTotal, monthlyScan, scan_fst_eq, zero_add]
  · rw [categoryTotals, monthlyScan, scan_lookup_eq]
    simp [lookupTotal]
  · norm_num +decide [monthlyTotal, monthlyScan, scanStep, exampleRows, strStarts]
  · norm_num +decide [categoryTotals, monthlyScan, scanStep, exampleRows,
      strStarts, addToTotals]

end Expense

namespace Expense

theorem filter_orderedInsert (q : ℚ) (x : String × ℚ)
    (l : List (String × ℚ)) :
    (List.orderedInsert rankRel x l).filter (fun p => decide (p.2 = q))
      = (x :: l).filter (fun p => decide (p.2 = q)) := by
  induction l with
  | nil => rfl
  | cons y ys ih =>
    rw [List.orderedInsert]
    by_cases hr : rankRel x y
    · rw [if_pos hr]
    · rw [if_neg hr]
      have hlt : x.2 < y.2 := lt_of_not_le hr
      by_cases hx : x.2 = q
      · have hy : ¬ y.2 = q := fun hy => absurd (hx.trans hy.symm) hlt.ne
        simp [List.filter_cons, hx, hy, ih]
      · by_cases hy : y.2 = q
        · simp [List.filter_cons, hx, hy, ih]
        · simp [List.filter_cons, hx, hy, ih]

theorem filter_sortedCategories (q : ℚ) (ts : List (String × ℚ)) :
    (sortedCategories ts).filter (fun p => decide (p.2 = q))
      = ts.filter (fun p => decide (p.2 = q)) := by
  induction ts with
  | nil => rfl
  | cons x xs ih =>
    rw [sortedCategories, List.insertionSort, filter_orderedInsert]
    rw [sortedCategories] at ih
    by_cases hx : x.2 = q
    · simp [List.filter_cons, hx, ih]
    · simp [List.filter_cons, hx, ih]

/-- Claim C6: when the grand total is nonzero, the top-category report
ranks categories by subtotal in descending order, ties broken by
first-seen order (a stable sort: filtering any fixed subtotal value
preserves the original order), and lists at most the first three; when
fewer than three categories exist the `not enough data` notice comes
first, followed by the listing of every category that exists. -/
theorem monthly_top3_report (pfx : String) (rows : List Record)
    (h : monthlyTotal pfx rows ≠ 0) :
    List.Pairwise (fun a b => b.2 ≤ a.2)
        (sortedCategories (categoryTotals pfx rows))
    ∧ (∀ q : ℚ,
        (sortedCategories (categoryTotals pfx rows)).filter
            (fun p => decide (p.2 = q))
          = (categoryTotals pfx rows).filter (fun p => decide (p.2 = q)))
    ∧ List.Perm (sortedCategories (categoryTotals pfx rows)) (categoryTotals pfx rows)
    ∧ ((sortedCategories (categoryTotals pfx rows)).take 3).length ≤ 3
    ∧ summarize pfx rows
        = SummaryLine.total (monthlyTotal pfx rows)
          :: ((categoryTotals pfx rows).map
              (fun p => SummaryLine.catLine p.1 p.2))
          ++ topSection (categoryTotals pfx rows)
    ∧ ((categoryTotals pfx rows).length < 3 →
        topSection (categoryTotals pfx rows)
          = SummaryLine.notEnough
            :: (sortedCategories (categoryTotals pfx rows)).enum.map
                (fun p => SummaryLine.topLine (p.1 + 1) p.2.1 p.2.2)) := by
  refine ⟨?_, fun q => filter_sortedCategories q _, ?_, ?_, ?_, ?_⟩
  · exact List.sorted_insertionSort rankRel _
  · exact List.perm_insertionSort rankRel _
  · simp [List.length_take]
  · rw [summarize, if_neg h]
  · intro hlt
    have hlen : (sortedCategories (categoryTotals pfx rows)).length < 3 := by
      rw [sortedCategories, List.length_insertionSort]
      exact hlt
    rw [topSection, if_pos hlen, List.take_of_length_le (le_of_lt hlen),
      List.singleton_append]

/-- Claim C7: the summary reports `no expenses this month` and nothing
else exactly when the grand total is zero, which — amounts being strictly
positive — happens exactly when no stored record's date starts with the
month string. -/
theorem summary_zero_iff (pfx : String) (rows : List Record)
    (h : ∀ r ∈ rows, 0 < r.amount) :
    (summarize pfx rows = [SummaryLine.noExpenses]
      ↔ monthlyTotal pfx rows = 0)
    ∧ (monthlyTotal pfx rows = 0
      ↔ rows.filter (fun r => strStarts r.date pfx) = []) := by
  have hsum : monthlyTotal pfx rows
      = ((rows.filter (fun r => strStarts r.date pfx)).map
          (fun r => r.amount)).sum := by
    rw [monthlyTotal, monthlyScan, scan_fst_eq, zero_add]
  constructor
  · by_cases h0 : monthlyTotal pfx rows = 0
    · simp [summarize, h0]
    · simp [summarize, h0]
  · rw [hsum]
    constructor
    · intro h0
      by_contra hne
      have hpos : 0 < ((rows.filter (fun r => strStarts r.date pfx)).map
          (fun r => r.amount)).sum := by
        apply List.sum_pos
        · intro x hx
          rcases List.mem_map.1 hx with ⟨r, hr, rfl⟩
          exact h r (List.mem_of_mem_filter hr)
        · simpa using hne
      exact hpos.ne' h0
    · intro h0
      rw [h0]
      simp

end Expense

namespace Expense

theorem monthly_top3_report_witness :
    monthlyTotal "2025-09" exampleRows ≠ 0
    ∧ (List.Pairwise (fun a b => b.2 ≤ a.2)
          (sortedCategories (categoryTotals "2025-09" exampleRows))
      ∧ (∀ q : ℚ,
          (sortedCategories (categoryTotals "2025-09" exampleRows)).filter
              (fun p => decide (p.2 = q))
            = (categoryTotals "2025-09" exampleRows).filter
                (fun p => decide (p.2 = q)))
      ∧ List.Perm (sortedCategories (categoryTotals "2025-09" exampleRows))
          (categoryTotals "2025-09" exampleRows)
      ∧ ((sortedCategories (categoryTotals "2025-09" exampleRows)).take 3).length ≤ 3
      ∧ summarize "2025-09" exampleRows
          = SummaryLine.total (monthlyTotal "2025-09" exampleRows)
            :: ((categoryTotals "2025-09" exampleRows).map
                (fun p => SummaryLine.catLine p.1 p.2))
            ++ topSection (categoryTotals "2025-09" exampleRows)
      ∧ ((categoryTotals "2025-09" exampleRows).length < 3 →
          topSection (categoryTotals "2025-09" exampleRows)
            = SummaryLine.notEnough
              :: (sortedCategories (categoryTotals "2025-09" exampleRows)).enum.map
                  (fun p => SummaryLine.topLine (p.1 + 1) p.2.1 p.2.2))) :=
  ⟨by norm_num +decide [monthlyTotal, monthlyScan, scanStep, exampleRows, strStarts],
   monthly_top3_report "2025-09" exampleRows
     (by norm_num +decide [monthlyTotal, monthlyScan, scanStep, exampleRows, strStarts])⟩

theorem summary_zero_iff_witness :
    (∀ r ∈ exampleRows, 0 < r.amount)
    ∧ ((summarize "2025-12" exampleRows = [SummaryLine.noExpenses]
        ↔ monthlyTotal "2025-12" exampleRows = 0)
      ∧ (monthlyTotal "2025-12" exampleRows = 0
        ↔ exampleRows.filter (fun r => strStarts r.date "2025-12") = [])) :=
  ⟨by decide, summary_zero_iff _ _ (by decide)⟩

end Expense
